import Mathlib

/-!
Verification of the senlin cluster-orchestration engine core against its
natural-language specification.  Each definition below is a shallow
embedding of a function in the repository; theorems settle the frozen
claims about those functions.

Source files embedded:
  senlin/engine/actions/base.py   (Action.policy_check, Action.signal,
                                   Action.set_status, Action.is_timeout,
                                   Action._check_signal, ActionProc)
  senlin/engine/cluster.py        (Cluster.attach_policy)
  senlin/policies/scaling_out_policy.py  (ScalingOutPolicy.pre_op)
  senlin/api/openstack/v1/actions.py     (ActionController.index)
-/

namespace Senlin

/-! ## Policy check pipeline (senlin/engine/actions/base.py, Action.policy_check) -/

/-- Phase of a policy check, the `target` argument of `policy_check`.
The source also accepts arbitrary strings and returns early when the
string is neither BEFORE nor AFTER; the embedding restricts the argument
to the two meaningful values, so that early-return branch is vacuous. -/
inductive When
  | BEFORE
  | AFTER
deriving DecidableEq, Repr

/-- Policy check status values, `CHECK_OK` and `CHECK_ERROR` from
senlin/policies/base.py. -/
inductive CheckStatus
  | CHECK_OK
  | CHECK_ERROR
deriving DecidableEq, Repr

/-- One enabled ClusterPolicy binding together with the attributes of its
loaded policy that `policy_check` consults.

`cooldown` models the `policy.cooldown` attribute (`none` = attribute
absent or None).  `cooldown_in_progress` models the result of
`pb.cooldown_inprogress(policy.cooldown)`; the ClusterPolicy class is not
part of the sources under verification, so the result is carried as an
abstract boolean.  `need_check` models `policy.need_check(target, action)`
for the fixed action and phase of one `policy_check` run.  `op_effect`
models the `pre_op` / `post_op` method: `none` when the method is absent
(`getattr` returned None), `some (st, r)` when the method exists and
writes `st`/`r` into `action.data` (every policy operation in the
repository writes both fields). -/
structure PolicyBinding where
  pid : Nat
  need_check : Bool
  cooldown : Option Nat
  cooldown_in_progress : Bool
  op_effect : Option (CheckStatus × String)
deriving DecidableEq, Repr

/-- Truthiness of the `getattr` fetch of the policy cooldown attribute:
a present, nonzero cooldown value. -/
def cooldownDeclared (pb : PolicyBinding) : Bool :=
  match pb.cooldown with
  | some c => c != 0
  | none => false

/-- The mutable state threaded through `policy_check`: the `status` and
`reason` entries of `action.data`, plus two observation lists recording
which bindings had `record_last_op` called and which policy operations
were actually invoked. -/
structure CheckData where
  status : CheckStatus
  reason : String
  last_op_recorded : List Nat
  ops_invoked : List Nat
deriving DecidableEq, Repr

/-- The `for pb in bindings` loop of `Action.policy_check`
(senlin/engine/actions/base.py lines 439-468), embedded statement by
statement.  Note the source places the `return` after the
`cooldown_inprogress` test at the indentation of the outer
cooldown-declared `if` block, so a declared cooldown
returns from the whole check whether or not the cooldown is in
progress. -/
def policyCheckLoop (target : When) : List PolicyBinding → CheckData → CheckData
  | [], d => d
  | pb :: rest, d =>
    let d1 := if target = When.AFTER then
                { d with last_op_recorded := d.last_op_recorded ++ [pb.pid] }
              else d
    if pb.need_check = false then
      policyCheckLoop target rest d1
    else if cooldownDeclared pb then
      if pb.cooldown_in_progress then
        { d1 with status := CheckStatus.CHECK_ERROR,
                  reason := "Policy " ++ toString pb.pid ++
                    " cooldown is still in progress." }
      else d1
    else
      let d2 := match pb.op_effect with
        | some (st, r) =>
            { d1 with ops_invoked := d1.ops_invoked ++ [pb.pid],
                      status := st, reason := r }
        | none => d1
      if d2.status = CheckStatus.CHECK_OK then
        policyCheckLoop target rest d2
      else
        d2

/-- The method `Action.policy_check`: initialize `action.data` to the default
CHECK_OK / completed values, then run the binding loop over all enabled
bindings of the cluster in priority order. -/
def policy_check (target : When) (bindings : List PolicyBinding) : CheckData :=
  policyCheckLoop target bindings
    { status := CheckStatus.CHECK_OK,
      reason := "Completed policy checking.",
      last_op_recorded := [],
      ops_invoked := [] }

/-! ## Action lifecycle (senlin/engine/actions/base.py) -/

/-- Action status values, the `STATUSES` tuple of the Action class. -/
inductive ActionStatus
  | INIT
  | WAITING
  | READY
  | RUNNING
  | SUSPENDED
  | SUCCEEDED
  | FAILED
  | CANCELLED
deriving DecidableEq, Repr

/-- The string a status is stored as, matching the `STATUSES` tuple. -/
def statusName : ActionStatus → String
  | ActionStatus.INIT => "INIT"
  | ActionStatus.WAITING => "WAITING"
  | ActionStatus.READY => "READY"
  | ActionStatus.RUNNING => "RUNNING"
  | ActionStatus.SUSPENDED => "SUSPENDED"
  | ActionStatus.SUCCEEDED => "SUCCEEDED"
  | ActionStatus.FAILED => "FAILED"
  | ActionStatus.CANCELLED => "CANCELLED"

/-- Return values of `execute`, the `RETURNS` tuple of the Action class. -/
inductive ActionResult
  | RES_OK
  | RES_ERROR
  | RES_RETRY
  | RES_CANCEL
  | RES_TIMEOUT
deriving DecidableEq, Repr

/-- The storage-adapter call `set_status` performs for the terminal (or
retry) update. -/
inductive DbOp
  | mark_succeeded
  | mark_failed (reason : String)
  | mark_cancelled
  | abandon
deriving DecidableEq, Repr

/-- Python `reason or default` applied to an optional string: both `None`
and the empty string are falsy. -/
def reasonOr (reason : Option String) (dflt : String) : String :=
  match reason with
  | some r => if r = "" then dflt else r
  | none => dflt

/-- The method `Action.set_status(result, reason)`: the new in-memory status and the
database update issued, one branch per member of `RETURNS`. -/
def set_status (result : ActionResult) (reason : Option String) :
    ActionStatus × DbOp :=
  match result with
  | ActionResult.RES_OK =>
      (ActionStatus.SUCCEEDED, DbOp.mark_succeeded)
  | ActionResult.RES_ERROR =>
      (ActionStatus.FAILED, DbOp.mark_failed (reasonOr reason "ERROR"))
  | ActionResult.RES_TIMEOUT =>
      (ActionStatus.FAILED, DbOp.mark_failed (reasonOr reason "TIMEOUT"))
  | ActionResult.RES_CANCEL =>
      (ActionStatus.CANCELLED, DbOp.mark_cancelled)
  | ActionResult.RES_RETRY =>
      (ActionStatus.READY, DbOp.abandon)

/-- The method `Action.is_timeout`: wallclock minus `start_time` strictly exceeds
`timeout`.  Times are modelled as integers (seconds). -/
def is_timeout (start_time timeout now : Int) : Bool :=
  now - start_time > timeout

/-- What `Action._check_signal` can return: the TIMEOUT result, a pending
signal command string from `action_signal_query`, or nothing pending. -/
inductive SignalResult
  | res_timeout
  | signal_pending (cmd : String)
  | no_signal
deriving DecidableEq, Repr

/-- The method of Action named check-signal: when `timeout` is not None and `is_timeout()`
holds, return `RES_TIMEOUT` without consulting the signal query;
otherwise return the pending signal (or nothing). -/
def check_signal (timeout : Option Int) (start_time now : Int)
    (pending : Option String) : SignalResult :=
  if (match timeout with
      | some t => is_timeout start_time t now
      | none => false) then
    SignalResult.res_timeout
  else
    match pending with
    | some c => SignalResult.signal_pending c
    | none => SignalResult.no_signal

/-- The worker frame `ActionProc(context, action_id)` after the action object has been
materialized: run `execute` inside try/except/finally.  The outcome of
`execute` is an `Except`: `ok (result, reason)` for a normal return,
`error msg` for an exception whose text is `msg`.  Returned are the
`success` flag and the `set_status` update performed in the `finally`
block. -/
def ActionProc (execResult : Except String (ActionResult × String)) :
    Bool × (ActionStatus × DbOp) :=
  match execResult with
  | Except.ok (result, reason) => (true, set_status result (some reason))
  | Except.error msg => (false, set_status ActionResult.RES_ERROR (some msg))

/-! ## Action.signal (senlin/engine/actions/base.py lines 292-315) -/

/-- Python substring membership `needle in hay` for strings: `needle`
occurs contiguously in `hay`. -/
def pyStrIn (needle hay : String) : Bool :=
  let n := needle.toList
  let h := hay.toList
  (List.range (h.length + 1)).any fun i => (h.drop i).take n.length == n

/-- The `COMMANDS` tuple of the Action class. -/
def commandList : List String := ["CANCEL", "SUSPEND", "RESUME"]

/-- The tuple of expected statuses for the CANCEL command. -/
def cancelExpected : List String := ["INIT", "WAITING", "READY", "RUNNING"]

/-- The method `Action.signal(cmd)`: `some cmd` when `db_api.action_signal` is
called with the command, `none` when the method returns without writing.
For SUSPEND and RESUME the source binds `expected_statuses` to a plain
string (the parentheses build no tuple), so the Python membership test
`self.status not in expected_statuses` is a substring test, embedded
here by `pyStrIn`. -/
def signal (cmd : String) (st : ActionStatus) : Option String :=
  if cmd ∉ commandList then
    none
  else
    let ok : Bool :=
      if cmd = "CANCEL" then
        cancelExpected.contains (statusName st)
      else if cmd = "SUSPEND" then
        pyStrIn (statusName st) "RUNNING"
      else
        pyStrIn (statusName st) "SUSPENDED"
    if ok then some cmd else none

/-! ## ScalingOutPolicy.pre_op (senlin/policies/scaling_out_policy.py) -/

/-- The `ADJUSTMENT_TYPES` the schema allows for the scaling policy. -/
inductive AdjustmentType
  | EXACT_CAPACITY
  | CHANGE_IN_CAPACITY
  | CHANGE_IN_PERCENTAGE
deriving DecidableEq, Repr

/-- The `count` computation of `pre_op` (lines 102-112): resolve the
adjustment against the current size, then let an explicit
count entry of `action.inputs` take priority.  The percentage arm computes
`int((number * current_size) / 100.0)`; for integer operands within
exact float range that is truncation toward zero, `Int.tdiv` here. -/
def resolveCount (atype : AdjustmentType) (number min_step : Int)
    (inputs_count : Option Int) (current_size : Nat) : Int :=
  let count : Int :=
    match atype with
    | AdjustmentType.EXACT_CAPACITY => number - current_size
    | AdjustmentType.CHANGE_IN_CAPACITY => number
    | AdjustmentType.CHANGE_IN_PERCENTAGE =>
        let c := Int.tdiv (number * current_size) 100
        if c < min_step then min_step else c
  match inputs_count with
  | some c => c
  | none => count

/-- The `policy_data` after `pre_op` returns: the status and reason set by
the sanity check, and the count value (the absolute value of the
resolved count) of the map stored under the creation key. -/
structure ScalingPolicyData where
  status : CheckStatus
  reason : String
  creation_count : Option Nat
deriving DecidableEq, Repr

/-- The method `ScalingOutPolicy.pre_op` (lines 97-135).  `current_size` is
`len(nodes)` for the cluster; `max_size` is the cluster record field
(−1 meaning unbounded at the data-model level).  Every branch of the
sanity check writes `status` and `reason`; afterwards the creation map
holding the absolute value of the count is always stored. -/
def scaling_out_pre_op (atype : AdjustmentType) (number min_step : Int)
    (best_effort : Bool) (inputs_count : Option Int)
    (current_size : Nat) (max_size : Int) : ScalingPolicyData :=
  let count := resolveCount atype number min_step inputs_count current_size
  if count < 0 then
    { status := CheckStatus.CHECK_ERROR,
      reason := "ScalingOutPolicy generates a negative count for scaling out operation.",
      creation_count := some count.natAbs }
  else if (current_size : Int) + count > max_size then
    if best_effort = false then
      { status := CheckStatus.CHECK_ERROR,
        reason := "Attempted scaling exceeds maximum size",
        creation_count := some count.natAbs }
    else
      { status := CheckStatus.CHECK_OK,
        reason := "Do best effort scaling",
        creation_count := some (max_size - current_size).natAbs }
  else
    { status := CheckStatus.CHECK_OK,
      reason := "Scaling request validated",
      creation_count := some count.natAbs }

/-! ## Cluster.attach_policy (senlin/engine/cluster.py lines 314-361) -/

/-- A policy object as `attach_policy` sees it: its id and its type name.
Whether a type is singleton is a type-level declaration, carried
separately as a function from type name to Bool. -/
structure Policy where
  pid : String
  ptype : String
deriving DecidableEq, Repr

/-- Result of the external `policy.attach(cluster)` callback. -/
structure AttachEnv where
  attach_ok : Bool
  attach_data : String
deriving DecidableEq, Repr

/-- Observable outcome of one `attach_policy` call: the returned boolean
and reason, whether the `policy.attach` callback was invoked, the
`rt` policy list after the call, and whether a ClusterPolicy binding was
stored. -/
structure AttachResult where
  res : Bool
  reason : String
  attach_invoked : Bool
  policies : List Policy
  binding_stored : Bool
deriving DecidableEq, Repr

/-- The conflict message of `attach_policy`, with the type name, the
existing policy id and the cluster id substituted. -/
def conflictReason (ptype existing_id cluster_id : String) : String :=
  "Only one instance of policy type (" ++ ptype ++
  ") can be attached to a cluster, but another instance (" ++ existing_id ++
  ") is found attached to the cluster (" ++ cluster_id ++ ") already."

/-- Outcome of the loop over the attached policies of the cluster. -/
inductive ScanOutcome
  | already_attached
  | conflict (existing : Policy)
  | no_match
deriving DecidableEq, Repr

/-- The scan over already-attached policies: per element, first the
id-equality early return, then the singleton type-conflict early
return. -/
def attachScan (singletonOf : String → Bool) (policy : Policy) :
    List Policy → ScanOutcome
  | [] => ScanOutcome.no_match
  | existing :: rest =>
    if existing.pid = policy.pid then
      ScanOutcome.already_attached
    else if existing.ptype = policy.ptype ∧ singletonOf policy.ptype = true then
      ScanOutcome.conflict existing
    else
      attachScan singletonOf policy rest

/-- The method `Cluster.attach_policy(ctx, policy_id, values)`: scan the attached
policies, then invoke the `attach` callback, store the binding and append
to the runtime cache on success. -/
def attach_policy (singletonOf : String → Bool) (cluster_id : String)
    (policies : List Policy) (policy : Policy) (env : AttachEnv) :
    AttachResult :=
  match attachScan singletonOf policy policies with
  | ScanOutcome.already_attached =>
      { res := true, reason := "Policy already attached.",
        attach_invoked := false, policies := policies,
        binding_stored := false }
  | ScanOutcome.conflict existing =>
      { res := false,
        reason := conflictReason policy.ptype existing.pid cluster_id,
        attach_invoked := false, policies := policies,
        binding_stored := false }
  | ScanOutcome.no_match =>
      if env.attach_ok = false then
        { res := false, reason := env.attach_data,
          attach_invoked := true, policies := policies,
          binding_stored := false }
      else
        { res := true, reason := "Policy attached.",
          attach_invoked := true, policies := policies ++ [policy],
          binding_stored := true }

/-- Cluster policy lists reachable through `attach_policy` alone,
starting from a cluster with no policies attached. -/
inductive Reachable (singletonOf : String → Bool) : List Policy → Prop
  | nil : Reachable singletonOf []
  | step (cluster_id : String) (p : Policy) (env : AttachEnv)
      (s : List Policy) :
      Reachable singletonOf s →
      Reachable singletonOf (attach_policy singletonOf cluster_id s p env).policies

/-- At most one attached policy of each singleton type. -/
def SingletonInv (singletonOf : String → Bool) (s : List Policy) : Prop :=
  ∀ t : String, singletonOf t = true →
    s.countP (fun p => p.ptype == t) ≤ 1

/-! ## ActionController.index (senlin/api/openstack/v1/actions.py) -/

/-- The `param_whitelist` keys of `ActionController.index`.  The consts
module is not among the sources; the key strings follow the
specification (limit, marker, sort, global_project). -/
def param_whitelist : List String := ["limit", "marker", "sort", "global_project"]

/-- The `filter_whitelist` keys of `ActionController.index` (name,
target, action, status per the specification). -/
def filter_whitelist : List String := ["name", "target", "action", "status"]

/-- The `for key in req.params.keys()` whitelist loop: the first key in
neither whitelist raises HTTPBadRequest with an invalid-parameter
message. -/
def checkParamWhitelist : List String → Except String Unit
  | [] => Except.ok ()
  | k :: rest =>
    if k ∉ param_whitelist ∧ k ∉ filter_whitelist then
      Except.error ("Invalid parameter " ++ k)
    else
      checkParamWhitelist rest

/-- The RPC call `action_list` is eventually issued with: the allowed
params and filters.  Modelled from the spec: `util.get_allowed_params`
is not among the sources; it projects the query onto each whitelist. -/
structure ActionListRpc where
  params : List String
  filters : List String
deriving DecidableEq, Repr

/-- The handler `ActionController.index` restricted to what the request query keys
determine: HTTPBadRequest (as `Except.error`) from the whitelist loop, or
the RPC call made with the allowed keys. -/
def action_index (qkeys : List String) : Except String ActionListRpc :=
  match checkParamWhitelist qkeys with
  | Except.error e => Except.error e
  | Except.ok _ =>
      Except.ok
        { params := qkeys.filter (fun k => param_whitelist.contains k),
          filters := qkeys.filter (fun k => filter_whitelist.contains k) }

/-! ## Theorems settling the claims -/

/-- Claim C1.  The claim states that for an enabled binding whose policy
declares a cooldown that is not in progress, `policy_check` invokes the
policy operation and continues with the next binding.  The code does
neither: the `return` at base.py line 460 sits outside the
`cooldown_inprogress` branch, so a declared cooldown always ends the
whole check.  Evaluated here: two enabled bindings, the first with a
declared cooldown of 60 not in progress — no policy operation is ever
invoked (not the first binding and not the second), yet the data is left
at the default CHECK_OK as if checking had completed. -/
theorem cooldown_declared_skips_policy_op :
    (policy_check When.BEFORE
      [⟨1, true, some 60, false, some (CheckStatus.CHECK_OK, "ok1")⟩,
       ⟨2, true, none, false, some (CheckStatus.CHECK_OK, "ok2")⟩]).ops_invoked
      = [] ∧
    (policy_check When.BEFORE
      [⟨1, true, some 60, false, some (CheckStatus.CHECK_OK, "ok1")⟩,
       ⟨2, true, none, false, some (CheckStatus.CHECK_OK, "ok2")⟩]).status
      = CheckStatus.CHECK_OK := by
  constructor
  · rfl
  · rfl

/-- Claim C2.  The claim states that a cluster with `max_size = -1`
(unbounded) never gets a size-limit violation from
`ScalingOutPolicy.pre_op`.  The code compares
`current_size + count > cluster.max_size` with no special case for −1,
which holds for every non-negative count, so the unbounded cluster is
rejected: with current size 0, resolved count 1, `best_effort` false, the
result is CHECK_ERROR; and with `best_effort` true (current size 2) the
written creation count is `abs(-1 - 2) = 3`, not the resolved count 1. -/
theorem scaling_out_unbounded_max_rejected :
    scaling_out_pre_op AdjustmentType.CHANGE_IN_CAPACITY 1 1 false none 0 (-1)
      = { status := CheckStatus.CHECK_ERROR,
          reason := "Attempted scaling exceeds maximum size",
          creation_count := some 1 } ∧
    scaling_out_pre_op AdjustmentType.CHANGE_IN_CAPACITY 1 1 true none 2 (-1)
      = { status := CheckStatus.CHECK_OK,
          reason := "Do best effort scaling",
          creation_count := some 3 } := by
  constructor
  · rfl
  · rfl

/-- Claim C4.  Any exception raised by `action.execute` is caught by
`ActionProc`: the result is converted to `RES_ERROR` with the exception
text as the reason, the terminal `set_status` update is still performed
(marking the action FAILED in storage), and False is returned. -/
theorem action_proc_catches_exception :
    ∀ msg : String,
      ActionProc (Except.error msg)
        = (false, set_status ActionResult.RES_ERROR (some msg)) ∧
      (ActionProc (Except.error msg)).2.1 = ActionStatus.FAILED ∧
      (ActionProc (Except.error msg)).2.2
        = DbOp.mark_failed (if msg = "" then "ERROR" else msg) := by
  intro msg
  exact ⟨rfl, rfl, rfl⟩

/-- Claim C5.  Whenever wallclock time minus `start_time` strictly
exceeds the timeout, `_check_signal` returns the TIMEOUT result no
matter what signal is pending, and `set_status` on a TIMEOUT result
with no reason supplied marks the action FAILED with reason TIMEOUT. -/
theorem timeout_signal_and_status :
    ∀ (start t now : Int) (pending : Option String),
      now - start > t →
      check_signal (some t) start now pending = SignalResult.res_timeout ∧
      set_status ActionResult.RES_TIMEOUT none
        = (ActionStatus.FAILED, DbOp.mark_failed "TIMEOUT") := by
  intro start t now pending h
  refine ⟨?_, rfl⟩
  simp only [check_signal, is_timeout]
  rw [if_pos (by simpa using h)]

theorem timeout_signal_and_status_witness :
    ((11 : Int) - 0 > 10) ∧
    (check_signal (some 10) 0 11 (some "CANCEL") = SignalResult.res_timeout ∧
     set_status ActionResult.RES_TIMEOUT none
       = (ActionStatus.FAILED, DbOp.mark_failed "TIMEOUT")) :=
  ⟨by decide, timeout_signal_and_status 0 10 11 (some "CANCEL") (by decide)⟩

/-- The policy operation of a binding, if present, reports CHECK_OK. -/
def opStatusOk (pb : PolicyBinding) : Bool :=
  match pb.op_effect with
  | some (st, _) => st == CheckStatus.CHECK_OK
  | none => true

/-- Claim C3, counterexample.  Two enabled bindings in the AFTER phase;
the first post_op reports CHECK_ERROR, aborting the pipeline, so the
second enabled binding never has its last_op recorded — contrary to the
claim that every enabled binding of the cluster is updated. -/
theorem after_phase_last_op_not_all_recorded :
    (policy_check When.AFTER
      [⟨1, true, none, false, some (CheckStatus.CHECK_ERROR, "boom")⟩,
       ⟨2, true, none, false, some (CheckStatus.CHECK_OK, "ok2")⟩]).last_op_recorded
      = [1] ∧
    2 ∉ (policy_check When.AFTER
      [⟨1, true, none, false, some (CheckStatus.CHECK_ERROR, "boom")⟩,
       ⟨2, true, none, false, some (CheckStatus.CHECK_OK, "ok2")⟩]).last_op_recorded := by
  constructor
  · rfl
  · decide

/-- In the AFTER phase, as long as no visited binding aborts the
pipeline (no declared cooldown among checked bindings and no policy
operation reporting CHECK_ERROR), the loop records last_op for every
binding, in order, whether or not `need_check` holds. -/
theorem policyCheckLoop_after_records (bs : List PolicyBinding) :
    ∀ d : CheckData, d.status = CheckStatus.CHECK_OK →
    (∀ pb ∈ bs, pb.need_check = true →
      cooldownDeclared pb = false ∧ opStatusOk pb = true) →
    (policyCheckLoop When.AFTER bs d).last_op_recorded
      = d.last_op_recorded ++ bs.map (fun pb => pb.pid) := by
  induction bs with
  | nil =>
    intro d _ _
    simp [policyCheckLoop]
  | cons pb rest ih =>
    intro d hd hh
    have hrest : ∀ q ∈ rest, q.need_check = true →
        cooldownDeclared q = false ∧ opStatusOk q = true := by
      intro q hq
      exact hh q (List.mem_cons_of_mem _ hq)
    simp only [policyCheckLoop, if_pos rfl]
    by_cases hnc : pb.need_check = false
    · rw [if_pos hnc, ih _ (by simpa using hd) hrest]
      simp
    · rw [if_neg hnc]
      have hpb := hh pb (List.mem_cons_self _ _) (by
        cases h : pb.need_check
        · exact absurd h hnc
        · rfl)
      rw [if_neg (by simp [hpb.1])]
      cases hoe : pb.op_effect with
      | none =>
        simp only [hoe]
        rw [if_pos (by simpa using hd), ih _ (by simpa using hd) hrest]
        simp
      | some p =>
        obtain ⟨st, r⟩ := p
        have hst : st = CheckStatus.CHECK_OK := by
          have := hpb.2
          rw [opStatusOk, hoe] at this
          exact beq_iff_eq.mp this
        simp only [hoe]
        rw [if_pos (by simp [hst]), ih _ (by simp [hst]) hrest]
        simp

/-- Claim C3, amended.  After an AFTER-phase `policy_check` that no
policy aborts, `binding.last_op` has been recorded for every enabled
binding of the cluster, including bindings whose policy was not
interested (`need_check` false); when some binding aborts the pipeline
(declared cooldown, or a post_op reporting CHECK_ERROR), only the
bindings up to and including it are recorded. -/
theorem after_phase_last_op_recorded_when_no_abort :
    ∀ bs : List PolicyBinding,
      (∀ pb ∈ bs, pb.need_check = true →
        cooldownDeclared pb = false ∧ opStatusOk pb = true) →
      (policy_check When.AFTER bs).last_op_recorded
        = bs.map (fun pb => pb.pid) := by
  intro bs hh
  rw [policy_check, policyCheckLoop_after_records bs _ rfl hh]
  rfl

theorem after_phase_last_op_recorded_when_no_abort_witness :
    (∀ pb ∈ ([⟨1, false, none, false, none⟩,
              ⟨2, true, none, false, some (CheckStatus.CHECK_OK, "ok2")⟩] :
        List PolicyBinding), pb.need_check = true →
      cooldownDeclared pb = false ∧ opStatusOk pb = true) ∧
    (policy_check When.AFTER
      [⟨1, false, none, false, none⟩,
       ⟨2, true, none, false, some (CheckStatus.CHECK_OK, "ok2")⟩]).last_op_recorded
      = [1, 2] :=
  ⟨by decide,
   after_phase_last_op_recorded_when_no_abort _ (by decide)⟩

/-- Claim C7, counterexample.  With best_effort true, current size 5,
max_size 3 and a resolved count of 0, the condition of the claim holds
(5 + 0 exceeds 3), yet `pre_op` writes creation count
`abs(3 - 5) = 2`, not `max_size - current_size = -2`. -/
theorem best_effort_creation_abs_counterexample :
    (scaling_out_pre_op AdjustmentType.CHANGE_IN_CAPACITY 0 1 true none 5 3).creation_count
      = some 2 ∧
    (scaling_out_pre_op AdjustmentType.CHANGE_IN_CAPACITY 0 1 true none 5 3).status
      = CheckStatus.CHECK_OK ∧
    ¬((3 : Int) - 5 = 2) := by
  exact ⟨rfl, rfl, by decide⟩

/-- Claim C7, amended.  When best_effort is true, max_size ≥ 0, the
current size does not exceed max_size, and the resolved count is
non-negative with `current_size + count > max_size`, `pre_op` sets
CHECK_OK with reason Do best effort scaling and writes creation count
`max_size - current_size` (in general the code writes the absolute value
of that difference); so a scale_out of 5 on a cluster with 2 nodes and
max_size 3 proceeds with count 1. -/
theorem best_effort_scaling_clamps_to_max :
    ∀ (atype : AdjustmentType) (number min_step : Int) (ic : Option Int)
      (current : Nat) (max_size : Int),
      0 ≤ max_size →
      (current : Int) ≤ max_size →
      0 ≤ resolveCount atype number min_step ic current →
      (current : Int) + resolveCount atype number min_step ic current > max_size →
      scaling_out_pre_op atype number min_step true ic current max_size
        = { status := CheckStatus.CHECK_OK,
            reason := "Do best effort scaling",
            creation_count := some (max_size - (current : Int)).toNat } := by
  intro atype number min_step ic current max_size _ h2 h3 h4
  simp only [scaling_out_pre_op]
  rw [if_neg (not_lt.mpr h3), if_pos h4, if_neg (by simp)]
  have habs : (max_size - (current : Int)).natAbs
      = (max_size - (current : Int)).toNat := by omega
  rw [habs]

theorem best_effort_scaling_clamps_to_max_witness :
    (0 ≤ (3 : Int) ∧ ((2 : Nat) : Int) ≤ 3 ∧
     0 ≤ resolveCount AdjustmentType.CHANGE_IN_CAPACITY 5 1 none 2 ∧
     ((2 : Nat) : Int) + resolveCount AdjustmentType.CHANGE_IN_CAPACITY 5 1 none 2 > 3) ∧
    scaling_out_pre_op AdjustmentType.CHANGE_IN_CAPACITY 5 1 true none 2 3
      = { status := CheckStatus.CHECK_OK,
          reason := "Do best effort scaling",
          creation_count := some 1 } :=
  ⟨⟨by decide, by decide, by decide, by decide⟩,
   best_effort_scaling_clamps_to_max AdjustmentType.CHANGE_IN_CAPACITY 5 1 none 2 3
     (by decide) (by decide) (by decide) (by decide)⟩

/-- Claim C9.  `Action.signal` writes the signal to storage exactly when
the command is one of CANCEL, SUSPEND, RESUME and the current status
admits it: CANCEL from INIT, WAITING, READY or RUNNING; SUSPEND from
RUNNING; RESUME from SUSPENDED.  Every other command or status
combination writes nothing.  (The SUSPEND and RESUME membership tests
are Python substring tests on a plain string, but no other status name
is a substring of RUNNING or of SUSPENDED, so the admitted statuses are
exactly these.) -/
theorem signal_persists_iff_status_admits :
    ∀ (cmd : String) (st : ActionStatus),
      (signal cmd st = some cmd ↔
        ((cmd = "CANCEL" ∧
            (st = ActionStatus.INIT ∨ st = ActionStatus.WAITING ∨
             st = ActionStatus.READY ∨ st = ActionStatus.RUNNING)) ∨
         (cmd = "SUSPEND" ∧ st = ActionStatus.RUNNING) ∨
         (cmd = "RESUME" ∧ st = ActionStatus.SUSPENDED))) ∧
      (signal cmd st = some cmd ∨ signal cmd st = none) := by
  intro cmd st
  by_cases h1 : cmd = "CANCEL"
  · subst h1; cases st <;> exact ⟨by decide, by decide⟩
  · by_cases h2 : cmd = "SUSPEND"
    · subst h2; cases st <;> exact ⟨by decide, by decide⟩
    · by_cases h3 : cmd = "RESUME"
      · subst h3; cases st <;> exact ⟨by decide, by decide⟩
      · have hmem : cmd ∉ commandList := by
          simp [commandList, h1, h2, h3]
        constructor
        · rw [signal, if_pos hmem]
          simp [h1, h2, h3]
        · rw [signal, if_pos hmem]
          exact Or.inr rfl

/-- The whitelist loop errors whenever some key is in neither
whitelist. -/
theorem checkParamWhitelist_error_of_unknown :
    ∀ (qkeys : List String) (k : String),
      k ∈ qkeys → k ∉ param_whitelist → k ∉ filter_whitelist →
      ∃ msg, checkParamWhitelist qkeys = Except.error msg := by
  intro qkeys
  induction qkeys with
  | nil =>
    intro k hk _ _
    exact absurd hk (List.not_mem_nil k)
  | cons h rest ih =>
    intro k hk hp hf
    by_cases hc : h ∉ param_whitelist ∧ h ∉ filter_whitelist
    · refine ⟨"Invalid parameter " ++ h, ?_⟩
      simp only [checkParamWhitelist]
      rw [if_pos hc]
    · have hne : k ≠ h := by
        rintro rfl
        exact hc ⟨hp, hf⟩
      have hk' : k ∈ rest := by
        rcases List.mem_cons.mp hk with h1 | h1
        · exact absurd h1 hne
        · exact h1
      obtain ⟨msg, hm⟩ := ih k hk' hp hf
      refine ⟨msg, ?_⟩
      simp only [checkParamWhitelist]
      rw [if_neg hc]
      exact hm

/-- Claim C8.  Any GET list request on the actions endpoint that carries
a query key outside the parameter whitelist (limit, marker, sort,
global_project) and the filter whitelist (name, target, action, status)
raises HTTPBadRequest from the whitelist loop, so the `action_list` RPC
is never issued. -/
theorem action_index_rejects_unknown_param :
    ∀ (qkeys : List String) (k : String),
      k ∈ qkeys → k ∉ param_whitelist → k ∉ filter_whitelist →
      ∃ msg, action_index qkeys = Except.error msg := by
  intro qkeys k hk hp hf
  obtain ⟨msg, hm⟩ := checkParamWhitelist_error_of_unknown qkeys k hk hp hf
  refine ⟨msg, ?_⟩
  rw [action_index, hm]

theorem action_index_rejects_unknown_param_witness :
    ("bogus" ∈ ["limit", "bogus"] ∧
     "bogus" ∉ param_whitelist ∧ "bogus" ∉ filter_whitelist) ∧
    ∃ msg, action_index ["limit", "bogus"] = Except.error msg :=
  ⟨⟨by decide, by decide, by decide⟩,
   action_index_rejects_unknown_param ["limit", "bogus"] "bogus"
     (by decide) (by decide) (by decide)⟩

/-- If the scan falls through without an early return and the policy
type is singleton, no attached policy has that type. -/
theorem attachScan_no_match_no_type (singletonOf : String → Bool)
    (p : Policy) :
    ∀ s : List Policy, attachScan singletonOf p s = ScanOutcome.no_match →
      singletonOf p.ptype = true →
      ∀ q ∈ s, (q.ptype == p.ptype) = false := by
  intro s
  induction s with
  | nil =>
    intro _ _ q hq
    exact absurd hq (List.not_mem_nil q)
  | cons e rest ih =>
    intro hscan hso q hq
    by_cases hpe : e.pid = p.pid
    · rw [attachScan, if_pos hpe] at hscan
      exact absurd hscan (by simp)
    · by_cases hte : e.ptype = p.ptype ∧ singletonOf p.ptype = true
      · rw [attachScan, if_neg hpe, if_pos hte] at hscan
        exact absurd hscan (by simp)
      · rw [attachScan, if_neg hpe, if_neg hte] at hscan
        rcases List.mem_cons.mp hq with h1 | h1
        · subst h1
          have : ¬(q.ptype = p.ptype) := fun h => hte ⟨h, hso⟩
          simpa using this
        · exact ih hscan hso q h1

/-- Every policy list reachable through `attach_policy` satisfies the
at-most-one-binding-per-singleton-type invariant. -/
theorem reachable_singleton_inv (singletonOf : String → Bool) :
    ∀ s : List Policy, Reachable singletonOf s →
      SingletonInv singletonOf s := by
  intro s hr
  induction hr with
  | nil =>
    intro t _
    simp
  | step cluster_id p env s₀ _ ih =>
    cases hscan : attachScan singletonOf p s₀ with
    | already_attached =>
      simpa [attach_policy, hscan] using ih
    | conflict e =>
      simpa [attach_policy, hscan] using ih
    | no_match =>
      by_cases hok : env.attach_ok = false
      · simpa [attach_policy, hscan, hok] using ih
      · intro t ht
        simp only [attach_policy, hscan, if_neg hok, List.countP_append]
        by_cases hpt : (p.ptype == t) = true
        · have hteq : t = p.ptype := (beq_iff_eq.mp hpt).symm
          have hzero : s₀.countP (fun q => q.ptype == t) = 0 := by
            rw [List.countP_eq_zero]
            intro q hq
            have := attachScan_no_match_no_type singletonOf p s₀ hscan
              (hteq ▸ ht) q hq
            subst hteq
            simp [this]
          simp [hzero, List.countP_cons, hpt]
        · have hone : List.countP (fun q => q.ptype == t) [p] = 0 := by
            simp [List.countP_cons, hpt]
          rw [hone]
          simpa using ih t ht

/-- With no id match possible and a singleton type conflict present, the
scan ends in the conflict early return. -/
theorem attachScan_conflict_of_type (singletonOf : String → Bool)
    (p : Policy) :
    ∀ s : List Policy,
      singletonOf p.ptype = true →
      (∃ q ∈ s, q.ptype = p.ptype) →
      (∀ q ∈ s, q.pid ≠ p.pid) →
      ∃ e, attachScan singletonOf p s = ScanOutcome.conflict e := by
  intro s
  induction s with
  | nil =>
    intro _ hex _
    obtain ⟨q, hq, _⟩ := hex
    exact absurd hq (List.not_mem_nil q)
  | cons e rest ih =>
    intro hso hex hid
    have hpe : ¬(e.pid = p.pid) := hid e (List.mem_cons_self _ _)
    by_cases hte : e.ptype = p.ptype
    · refine ⟨e, ?_⟩
      rw [attachScan, if_neg hpe, if_pos ⟨hte, hso⟩]
    · have hex' : ∃ q ∈ rest, q.ptype = p.ptype := by
        obtain ⟨q, hq, hqt⟩ := hex
        rcases List.mem_cons.mp hq with h1 | h1
        · exact absurd (h1 ▸ hqt) hte
        · exact ⟨q, h1, hqt⟩
      obtain ⟨e', he'⟩ := ih hso hex' (fun q hq => hid q (List.mem_cons_of_mem _ hq))
      refine ⟨e', ?_⟩
      rw [attachScan, if_neg hpe, if_neg (fun h => hte h.1)]
      exact he'

/-- Claim C6.  First part: whenever some policy of the same type is
already attached, the new policy is not itself attached (no existing
binding carries its id), and the type is singleton, `attach_policy`
returns False with a reason, invokes no attach callback, stores no
binding, and leaves the policy list unchanged.  Second part: therefore
every policy list reachable through `attach_policy` carries at most one
binding per singleton policy type. -/
theorem attach_policy_singleton_conflict_and_invariant :
    (∀ (singletonOf : String → Bool) (cluster_id : String)
       (s : List Policy) (p : Policy) (env : AttachEnv),
       singletonOf p.ptype = true →
       (∃ q ∈ s, q.ptype = p.ptype) →
       (∀ q ∈ s, q.pid ≠ p.pid) →
       (attach_policy singletonOf cluster_id s p env).res = false ∧
       (attach_policy singletonOf cluster_id s p env).attach_invoked = false ∧
       (attach_policy singletonOf cluster_id s p env).policies = s ∧
       (attach_policy singletonOf cluster_id s p env).binding_stored = false) ∧
    (∀ (singletonOf : String → Bool) (s : List Policy),
       Reachable singletonOf s → SingletonInv singletonOf s) := by
  constructor
  · intro singletonOf cluster_id s p env hso hex hid
    obtain ⟨e, hscan⟩ := attachScan_conflict_of_type singletonOf p s hso hex hid
    rw [attach_policy, hscan]
    exact ⟨rfl, rfl, rfl, rfl⟩
  · intro singletonOf s hr
    exact reachable_singleton_inv singletonOf s hr

theorem attach_policy_singleton_conflict_and_invariant_witness :
    (((fun t => t == "T") : String → Bool) (Policy.mk "A" "T").ptype = true ∧
     (∃ q ∈ [Policy.mk "B" "T"], q.ptype = (Policy.mk "A" "T").ptype) ∧
     (∀ q ∈ [Policy.mk "B" "T"], q.pid ≠ (Policy.mk "A" "T").pid) ∧
     ((attach_policy (fun t => t == "T") "c1" [Policy.mk "B" "T"]
        (Policy.mk "A" "T") ⟨true, "d"⟩).res = false ∧
      (attach_policy (fun t => t == "T") "c1" [Policy.mk "B" "T"]
        (Policy.mk "A" "T") ⟨true, "d"⟩).attach_invoked = false ∧
      (attach_policy (fun t => t == "T") "c1" [Policy.mk "B" "T"]
        (Policy.mk "A" "T") ⟨true, "d"⟩).policies = [Policy.mk "B" "T"] ∧
      (attach_policy (fun t => t == "T") "c1" [Policy.mk "B" "T"]
        (Policy.mk "A" "T") ⟨true, "d"⟩).binding_stored = false)) ∧
    (Reachable (fun t => t == "T") [] ∧
     SingletonInv (fun t => t == "T") []) :=
  ⟨⟨by decide, by decide, by decide,
    attach_policy_singleton_conflict_and_invariant.1 (fun t => t == "T") "c1"
      [Policy.mk "B" "T"] (Policy.mk "A" "T") ⟨true, "d"⟩
      (by decide) (by decide) (by decide)⟩,
   ⟨Reachable.nil,
    attach_policy_singleton_conflict_and_invariant.2 (fun t => t == "T") []
      Reachable.nil⟩⟩

/-- Under the singleton invariant, the scan over a list containing the
policy itself ends in the already-attached early return. -/
theorem attachScan_mem_already_attached (singletonOf : String → Bool)
    (p : Policy) :
    ∀ s : List Policy, p ∈ s →
      (singletonOf p.ptype = true →
        s.countP (fun q => q.ptype == p.ptype) ≤ 1) →
      attachScan singletonOf p s = ScanOutcome.already_attached := by
  intro s
  induction s with
  | nil =>
    intro hp _
    exact absurd hp (List.not_mem_nil p)
  | cons e rest ih =>
    intro hp hcnt
    by_cases hpe : e.pid = p.pid
    · rw [attachScan, if_pos hpe]
    · have hpr : p ∈ rest := by
        rcases List.mem_cons.mp hp with h1 | h1
        · exact absurd (congrArg Policy.pid h1.symm) hpe
        · exact h1
      have hnotconf : ¬(e.ptype = p.ptype ∧ singletonOf p.ptype = true) := by
        rintro ⟨hte, hso⟩
        have h1 := hcnt hso
        rw [List.countP_cons] at h1
        have hpos : 0 < rest.countP (fun q => q.ptype == p.ptype) :=
          List.countP_pos_iff.mpr ⟨p, hpr, by simp⟩
        rw [if_pos (by simp [hte])] at h1
        omega
      rw [attachScan, if_neg hpe, if_neg hnotconf]
      refine ih hpr ?_
      intro hso
      have h1 := hcnt hso
      rw [List.countP_cons] at h1
      omega

/-- Claim C10, counterexample.  On the policy list [B, A] with both of
singleton type T, re-attaching the already-attached policy A hits the
type-conflict early return at B before the id check can see A, so
`attach_policy` returns False instead of the claimed success.  (No such
list is reachable through `attach_policy` itself.) -/
theorem attach_policy_idempotent_counterexample :
    (Policy.mk "A" "T") ∈ [Policy.mk "B" "T", Policy.mk "A" "T"] ∧
    (attach_policy (fun t => t == "T") "c1"
        [Policy.mk "B" "T", Policy.mk "A" "T"]
        (Policy.mk "A" "T") ⟨true, "d"⟩).res = false := by
  exact ⟨by decide, rfl⟩

/-- Claim C10, amended.  On every cluster state reachable through
`attach_policy` (equivalently, every state satisfying the singleton
invariant that `attach_policy` maintains), attaching an
already-attached policy returns success with reason
Policy already attached., invokes no attach callback, stores no second
binding, and leaves the policy list unchanged — so attaching the same
policy twice leaves the same state as attaching it once. -/
theorem attach_policy_idempotent_on_reachable :
    ∀ (singletonOf : String → Bool) (cluster_id : String)
      (s : List Policy) (p : Policy) (env : AttachEnv),
      Reachable singletonOf s → p ∈ s →
      attach_policy singletonOf cluster_id s p env
        = { res := true, reason := "Policy already attached.",
            attach_invoked := false, policies := s,
            binding_stored := false } := by
  intro singletonOf cluster_id s p env hr hp
  have hinv := reachable_singleton_inv singletonOf s hr
  have hscan := attachScan_mem_already_attached singletonOf p s hp
    (fun hso => hinv p.ptype hso)
  rw [attach_policy, hscan]

theorem attach_policy_idempotent_on_reachable_witness :
    (Reachable (fun t => t == "T") [Policy.mk "A" "T"] ∧
     (Policy.mk "A" "T") ∈ [Policy.mk "A" "T"]) ∧
    attach_policy (fun t => t == "T") "c1" [Policy.mk "A" "T"]
        (Policy.mk "A" "T") ⟨true, "d"⟩
      = { res := true, reason := "Policy already attached.",
          attach_invoked := false, policies := [Policy.mk "A" "T"],
          binding_stored := false } :=
  ⟨⟨Reachable.step "c1" (Policy.mk "A" "T") ⟨true, "d"⟩ [] Reachable.nil,
    by decide⟩,
   attach_policy_idempotent_on_reachable (fun t => t == "T") "c1"
     [Policy.mk "A" "T"] (Policy.mk "A" "T") ⟨true, "d"⟩
     (Reachable.step "c1" (Policy.mk "A" "T") ⟨true, "d"⟩ [] Reachable.nil)
     (by decide)⟩

end Senlin
